import Mathlib

/-!
# AdaptiveValve: position sensing, remote-code decoding and bang-bang control

A shallow embedding of `MotorDriver/src/AdaptiveValve.cpp`.

Modelling conventions.

* C++ `float` / `double` values are embedded as exact rationals (`ℚ`): every
  arithmetic step of the source is kept in the order the source performs it, but
  rounding, infinities and NaN are not represented.  Division by zero follows
  Lean (`x / 0 = 0`); the theorems that divide carry the hypotheses that keep
  the divisor away from zero.
* The class's member variables are the fields of `Valve`, under the names the
  source gives them.  `AdaptiveValve.h` is not part of the sources at hand, so
  the calibration constants it initialises (`_ang_position_max`, `_u_max`,
  `_measurement_gear_diameter`, `_remote_combinations`) are fields whose values
  are left free.
* The hardware collaborators are external.  The motor driver `_tle` is the list
  of `set_pwm_dir` commands it has received, most recent first.  The value of
  `_ads.computeVolts(_ads.readADC_SingleEnded(_ads_channel))` is an argument
  (`volts`) of every operation that samples the sensor.
-/

namespace AdaptiveValve

/-- One call `_tle.set_pwm_dir(pwm, dir)` received by the motor driver. -/
structure MotorCmd where
  pwm : Nat
  dir : Nat
  deriving DecidableEq, Repr

/-- Member variables of one `AdaptiveValve` object. -/
structure Valve where
  _ads_i2c_addr : Nat
  _ads_channel : Nat
  _tle_cs_pin : Nat
  _displacement_min : ℚ
  _displacement_max : ℚ
  _set_position : ℚ
  _displacement_tolerance : ℚ
  _remote_code : Int
  _remote_combinations : Int
  _ang_position_max : ℚ
  _u_max : ℚ
  _measurement_gear_diameter : ℚ
  u : ℚ
  ang_position : ℚ
  displacement : ℚ
  in_position : Bool
  _tle : List MotorCmd
  deriving DecidableEq, Repr

/-- The motor driver method `_tle.set_pwm_dir(pwm, dir)`: the command is recorded. -/
def set_pwm_dir (s : Valve) (pwm dir : Nat) : Valve :=
  { s with _tle := { pwm := pwm, dir := dir } :: s._tle }

/-- Method `float AdaptiveValve::decode_position(int remote_settings)`: a code other
than the sentinel -1 replaces the stored one, then the stored code is mapped
linearly onto the displacement range. -/
def decode_position (s : Valve) (remote_settings : Int) : ℚ × Valve :=
  let s1 : Valve :=
    if remote_settings ≠ -1 then { s with _remote_code := remote_settings } else s
  (((s1._remote_code : ℚ) / ((s1._remote_combinations : ℚ) - 1))
      * (s1._displacement_max - s1._displacement_min) + s1._displacement_min, s1)

/-- Method `void AdaptiveValve::set_position(float new_position)`. -/
def set_position (s : Valve) (new_position : ℚ) : Valve :=
  { s with _set_position := new_position }

/-- Method `float AdaptiveValve::get_position()`; `volts` is the converted sensor
sample.  The three assignments of the source, in order. -/
def get_position (s : Valve) (volts : ℚ) : ℚ × Valve :=
  let s1 : Valve := { s with u := volts }
  let s2 : Valve := { s1 with ang_position := (s1.u * s1._ang_position_max) / s1._u_max }
  let s3 : Valve :=
    { s2 with displacement :=
        (s2.ang_position / 360) * (314159 / 100000) * s2._measurement_gear_diameter }
  (s3.displacement, s3)

/-- Method `bool AdaptiveValve::controller(float displacement_tolerance)`; `volts` is
the sensor sample its `get_position()` call reads. -/
def controller (s : Valve) (displacement_tolerance : ℚ) (volts : ℚ) : Bool × Valve :=
  let s1 : Valve := { s with _displacement_tolerance := displacement_tolerance }
  let s2 : Valve := (get_position s1 volts).2
  if |s2._set_position - s2.displacement| ≥ s2._displacement_tolerance then
    let s3 : Valve :=
      if s2._set_position ≥ s2.displacement then set_pwm_dir s2 1 1 else set_pwm_dir s2 1 0
    (false, { s3 with in_position := false })
  else
    let s3 : Valve := set_pwm_dir s2 0 0
    (true, { s3 with in_position := true })

/-- A caller's polling loop `while (!valve.controller(tolerance));`, run for at
most `fuel` controller calls; call number `i` samples `readings i`.  The result
is the valve as the loop leaves it, or `none` while the loop is still polling
after `fuel` calls. -/
def poll_until_settled (tolerance : ℚ) : Nat → (Nat → ℚ) → Valve → Option Valve
  | 0, _, _ => none
  | fuel + 1, readings, s =>
    let r := controller s tolerance (readings 0)
    if r.1 then some r.2 else poll_until_settled tolerance fuel (fun i => readings (i + 1)) r.2

/-- The statement `while (ad_valve_1.controller());` of `loop()` in `main.cpp`, run
for at most `fuel` controller calls; call number `i` samples `readings i`.  The
body is empty and the loop goes on while `controller` returns true.  `tolerance`
is the default argument of `controller`, declared in the header.  The result is
the number of calls made and the valve as the loop leaves it, or `none` while the
loop is still polling after `fuel` calls. -/
def poll_while_controller (tolerance : ℚ) : Nat → (Nat → ℚ) → Valve → Option (Nat × Valve)
  | 0, _, _ => none
  | fuel + 1, readings, s =>
    let r := controller s tolerance (readings 0)
    if r.1 then
      (poll_while_controller tolerance fuel (fun i => readings (i + 1)) r.2).map
        (fun p => (p.1 + 1, p.2))
    else some (1, r.2)

/-- One pass of `loop()` in `main.cpp` on `ad_valve_1`: target 0, poll, target 70,
poll.  Each polling statement may make up to `fuel` controller calls; the sensor
samples are taken from `readings` in order.  The timer tick, the serial output and
the delays do not write any field that `controller` reads before overwriting it and
are left out. -/
def loop (tolerance : ℚ) (fuel : Nat) (readings : Nat → ℚ) (ad_valve_1 : Valve) : Option Valve :=
  match poll_while_controller tolerance fuel readings (set_position ad_valve_1 0) with
  | none => none
  | some (k, s1) =>
    match poll_while_controller tolerance fuel (fun i => readings (i + k)) (set_position s1 70) with
    | none => none
    | some (_, s2) => some s2

/-- A valve as wired in the application: converter address and channel, chip
select pin, the given target and range, sensor calibration 180 degrees over 5 V
on a 20 mm gear, sixteen remote codes. -/
def sample_valve (set_pos dmin dmax : ℚ) : Valve :=
  { _ads_i2c_addr := 73, _ads_channel := 3, _tle_cs_pin := 7,
    _displacement_min := dmin, _displacement_max := dmax, _set_position := set_pos,
    _displacement_tolerance := 0, _remote_code := 0, _remote_combinations := 16,
    _ang_position_max := 180, _u_max := 5, _measurement_gear_diameter := 20,
    u := 0, ang_position := 0, displacement := 0, in_position := false, _tle := [] }

/-! ## Unfolding lemmas -/

theorem get_position_fst (s : Valve) (volts : ℚ) :
    (get_position s volts).1 =
      ((volts * s._ang_position_max) / s._u_max / 360) * (314159 / 100000)
        * s._measurement_gear_diameter := rfl

theorem get_position_snd (s : Valve) (volts : ℚ) :
    (get_position s volts).2 =
      { s with u := volts, ang_position := (volts * s._ang_position_max) / s._u_max,
               displacement := (get_position s volts).1 } := rfl

/-- The state in which `controller` takes its decision: the tolerance stored, the
sensor sampled. -/
theorem controller_unfold (s : Valve) (tolerance volts : ℚ) :
    controller s tolerance volts =
      if tolerance ≤ |s._set_position - (get_position s volts).1| then
        (false,
          { (if (get_position s volts).1 ≤ s._set_position then
              set_pwm_dir (get_position { s with _displacement_tolerance := tolerance } volts).2 1 1
            else
              set_pwm_dir (get_position { s with _displacement_tolerance := tolerance } volts).2 1 0)
            with in_position := false })
      else
        (true,
          { set_pwm_dir (get_position { s with _displacement_tolerance := tolerance } volts).2 0 0
            with in_position := true }) := rfl

theorem controller_fst (s : Valve) (tolerance volts : ℚ) :
    (controller s tolerance volts).1 =
      decide (|s._set_position - (get_position s volts).1| < tolerance) := by
  rw [controller_unfold]
  by_cases h : |s._set_position - (get_position s volts).1| < tolerance
  · rw [if_neg (not_le.mpr h), decide_eq_true h]
  · rw [if_pos (not_lt.mp h), decide_eq_false h]

theorem controller_snd (s : Valve) (tolerance volts : ℚ) :
    (controller s tolerance volts).2 =
      { s with
        _displacement_tolerance := tolerance
        u := volts
        ang_position := (volts * s._ang_position_max) / s._u_max
        displacement := (get_position s volts).1
        in_position := (controller s tolerance volts).1
        _tle :=
          (if (controller s tolerance volts).1 = true then { pwm := 0, dir := 0 }
           else if s._set_position ≥ (get_position s volts).1 then { pwm := 1, dir := 1 }
           else { pwm := 1, dir := 0 } : MotorCmd) :: s._tle } := by
  rw [controller_unfold]
  by_cases h : tolerance ≤ |s._set_position - (get_position s volts).1|
  · rw [if_pos h]
    by_cases h2 : (get_position s volts).1 ≤ s._set_position
    · rw [if_pos h2]
      simp only [ge_iff_le, if_pos h2]
      rfl
    · rw [if_neg h2]
      simp only [ge_iff_le, if_neg h2]
      rfl
  · rw [if_neg h]
    rfl

theorem sample_measured (t dmin dmax volts : ℚ) :
    (get_position (sample_valve t dmin dmax) volts).1 = volts * (314159 / 50000) := by
  rw [get_position_fst]
  simp only [sample_valve]
  ring

/-- On a calibration whose three constants are non-zero every displacement is the
image of some sensor voltage: quantifying over readings covers every measured
displacement. -/
theorem get_position_reaches (s : Valve) (ha : s._ang_position_max ≠ 0) (hu : s._u_max ≠ 0)
    (hd : s._measurement_gear_diameter ≠ 0) (measured : ℚ) :
    ∃ volts : ℚ, (get_position s volts).1 = measured := by
  refine ⟨measured * s._u_max * 360 * 100000
      / (s._ang_position_max * 314159 * s._measurement_gear_diameter), ?_⟩
  rw [get_position_fst]
  field_simp
  ring

/-- The fields `controller` leaves as they were. -/
theorem controller_keeps (s : Valve) (tolerance volts : ℚ) :
    (controller s tolerance volts).2._set_position = s._set_position ∧
      (controller s tolerance volts).2._remote_code = s._remote_code ∧
      (controller s tolerance volts).2._displacement_min = s._displacement_min ∧
      (controller s tolerance volts).2._displacement_max = s._displacement_max ∧
      (controller s tolerance volts).2._ang_position_max = s._ang_position_max ∧
      (controller s tolerance volts).2._u_max = s._u_max ∧
      (controller s tolerance volts).2._measurement_gear_diameter
        = s._measurement_gear_diameter := by
  rw [controller_snd]
  exact ⟨rfl, rfl, rfl, rfl, rfl, rfl, rfl⟩

/-- The displacement computed from a reading depends on the calibration constants
only. -/
theorem get_position_fst_congr (s t : Valve) (volts : ℚ)
    (ha : t._ang_position_max = s._ang_position_max) (hu : t._u_max = s._u_max)
    (hd : t._measurement_gear_diameter = s._measurement_gear_diameter) :
    (get_position t volts).1 = (get_position s volts).1 := by
  rw [get_position_fst, get_position_fst, ha, hu, hd]

/-- A target at least `tolerance` away from a measured displacement makes
`controller` return false. -/
theorem controller_false_of_far (s : Valve) (tolerance volts : ℚ)
    (h : tolerance ≤ |s._set_position - (get_position s volts).1|) :
    (controller s tolerance volts).1 = false := by
  rw [controller_fst]
  exact decide_eq_false (not_lt.mpr h)

/-! ## The bang-bang controller -/

/-- The scenario target = 70, measured = 15.7, tolerance = 1: `controller` returns
false and the one command issued is drive-forward. -/
theorem controller_scenario_seeking :
    (get_position (sample_valve 70 0 70) (785000 / 314159)).1 = 157 / 10 ∧
      (controller (sample_valve 70 0 70) 1 (785000 / 314159)).1 = false ∧
      (controller (sample_valve 70 0 70) 1 (785000 / 314159)).2._tle
        = [{ pwm := 1, dir := 1 }] := by
  have hm := sample_measured 70 0 70 (785000 / 314159)
  have hm2 : (get_position (sample_valve 70 0 70) (785000 / 314159)).1 = 157 / 10 := by
    rw [hm]; norm_num
  have hr : (controller (sample_valve 70 0 70) 1 (785000 / 314159)).1 = false := by
    rw [controller_fst, hm2]
    simp only [sample_valve]
    norm_num [abs_lt]
  refine ⟨hm2, hr, ?_⟩
  rw [controller_snd, hr, hm2]
  simp only [sample_valve]
  norm_num

/-- The scenario target = 0, measured = 0.3, tolerance = 1: `controller` returns
true and the one command issued is stop. -/
theorem controller_scenario_settled :
    (get_position (sample_valve 0 0 70) (15000 / 314159)).1 = 3 / 10 ∧
      (controller (sample_valve 0 0 70) 1 (15000 / 314159)).1 = true ∧
      (controller (sample_valve 0 0 70) 1 (15000 / 314159)).2._tle
        = [{ pwm := 0, dir := 0 }] := by
  have hm := sample_measured 0 0 70 (15000 / 314159)
  have hm2 : (get_position (sample_valve 0 0 70) (15000 / 314159)).1 = 3 / 10 := by
    rw [hm]; norm_num
  have hr : (controller (sample_valve 0 0 70) 1 (15000 / 314159)).1 = true := by
    rw [controller_fst, hm2]
    simp only [sample_valve]
    norm_num [abs_lt]
  refine ⟨hm2, hr, ?_⟩
  rw [controller_snd, hr]
  simp only [sample_valve]
  norm_num

/-- C2: the single motor command issued by `controller` is stop `(0,0)` exactly
when it returns true, drive-forward `(1,1)` when it returns false and
target >= measured, drive-reverse `(1,0)` when it returns false and
target < measured; the command has the motor enabled exactly when the call returns
false, so never in a call that returns true. -/
theorem controller_single_command (s : Valve) (tolerance volts : ℚ) :
    (controller s tolerance volts).2._tle =
        (if (controller s tolerance volts).1 = true then { pwm := 0, dir := 0 }
         else if s._set_position ≥ (get_position s volts).1 then { pwm := 1, dir := 1 }
         else { pwm := 1, dir := 0 } : MotorCmd) :: s._tle ∧
      ((controller s tolerance volts).2._tle = { pwm := 0, dir := 0 } :: s._tle ↔
        (controller s tolerance volts).1 = true) ∧
      ((controller s tolerance volts).2._tle.take 1).map MotorCmd.pwm =
        [if (controller s tolerance volts).1 = true then 0 else 1] := by
  have hs := congrArg Valve._tle (controller_snd s tolerance volts)
  simp only at hs
  refine ⟨hs, ?_, ?_⟩
  · rw [hs]
    cases (controller s tolerance volts).1
    · by_cases h : s._set_position ≥ (get_position s volts).1
      · simp [h]
      · simp [h]
    · simp
  · rw [hs]
    cases (controller s tolerance volts).1
    · by_cases h : s._set_position ≥ (get_position s volts).1
      · simp [h]
      · simp [h]
    · simp

/-- C10: with tolerance zero `controller` never reports in-position: for every
target and every sensor reading, also one whose displacement equals the target,
`controller(0)` returns false and its one command has the motor enabled; hence
the loop polling until settled is still polling after any number of calls, on
every sequence of readings. -/
theorem controller_zero_tolerance_never_settles (s : Valve) (volts : ℚ) :
    (controller s 0 volts).1 = false ∧
      (∃ dir : Nat, (controller s 0 volts).2._tle = { pwm := 1, dir := dir } :: s._tle) ∧
      (∀ (fuel : Nat) (readings : Nat → ℚ), poll_until_settled 0 fuel readings s = none) := by
  have h0 : ∀ (t : Valve) (v : ℚ), (controller t 0 v).1 = false := by
    intro t v
    rw [controller_fst]
    exact decide_eq_false (not_lt.mpr (abs_nonneg _))
  refine ⟨h0 s volts, ?_, ?_⟩
  · have hs := congrArg Valve._tle (controller_snd s 0 volts)
    simp only at hs
    rw [hs, h0 s volts]
    by_cases h : s._set_position ≥ (get_position s volts).1
    · exact ⟨1, by simp [h]⟩
    · exact ⟨0, by simp [h]⟩
  · intro fuel
    induction fuel generalizing s with
    | zero => intro readings; rfl
    | succ n ih =>
      intro readings
      simp only [poll_until_settled, h0 s (readings 0)]
      exact ih _ _

/-! ## The remote-code decoder -/

theorem decode_position_snd (s : Valve) (code : Int) :
    (decode_position s code).2 =
      { s with _remote_code := if code ≠ -1 then code else s._remote_code } := by
  unfold decode_position
  by_cases h : code ≠ -1
  · simp only [if_pos h]
  · simp only [if_neg h]

theorem decode_position_fst (s : Valve) (code : Int) (h : code ≠ -1) :
    (decode_position s code).1 =
      ((code : ℚ) / ((s._remote_combinations : ℚ) - 1))
        * (s._displacement_max - s._displacement_min) + s._displacement_min := by
  unfold decode_position
  simp only [if_pos h]

theorem decode_position_sentinel (s : Valve) :
    decode_position s (-1) =
      (((s._remote_code : ℚ) / ((s._remote_combinations : ℚ) - 1))
        * (s._displacement_max - s._displacement_min) + s._displacement_min, s) := by
  unfold decode_position
  simp

/-- The scenario of sixteen codes over 0..70: code 7 decodes to 7/15 * 70. -/
theorem decode_position_scenario_mid :
    (decode_position (sample_valve 0 0 70) 7).1 = 7 / 15 * 70 := by
  rw [decode_position_fst _ 7 (by decide)]
  simp only [sample_valve]
  norm_num

/-- C5: in the state reached by `decode_position(c)` with c != -1, a following
`decode_position(-1)` returns the value of that preceding call and leaves the whole
valve state, the stored remote_code (= c) included, unchanged; after any number of
further `decode_position(-1)` calls the next one still returns that value and
that state. -/
theorem decode_position_sentinel_rereads (s : Valve) (c : Int) (hc : c ≠ -1) :
    decode_position (decode_position s c).2 (-1) = decode_position s c ∧
      (decode_position s c).2._remote_code = c ∧
      (∀ n : Nat,
        decode_position
            (Nat.iterate (fun t => (decode_position t (-1)).2) n (decode_position s c).2) (-1)
          = decode_position s c) := by
  have h1 : decode_position (decode_position s c).2 (-1) = decode_position s c := by
    rw [decode_position_sentinel]
    apply Prod.ext
    · rw [decode_position_fst s c hc, decode_position_snd]
      simp only [if_pos hc]
    · rfl
  have hfix : ∀ n : Nat,
      Nat.iterate (fun t => (decode_position t (-1)).2) n (decode_position s c).2
        = (decode_position s c).2 := by
    intro n
    induction n with
    | zero => rfl
    | succ n ih =>
      rw [Function.iterate_succ_apply, h1]
      exact ih
  refine ⟨h1, ?_, ?_⟩
  · rw [decode_position_snd]
    simp only [if_pos hc]
  · intro n
    rw [hfix n]
    exact h1

/-- After `decode_position(7)` on the sixteen-code valve, `decode_position(-1)`
returns the same pair of value and state. -/
theorem decode_position_sentinel_rereads_witness :
    (7 : Int) ≠ -1 ∧
      decode_position (decode_position (sample_valve 0 0 70) 7).2 (-1)
        = decode_position (sample_valve 0 0 70) 7 :=
  ⟨by decide, (decode_position_sentinel_rereads (sample_valve 0 0 70) 7 (by decide)).1⟩

/-- C9: for every valve state and every code, `decode_position(code)` changes no
field other than remote_code (target, cached displacement, in_position, tolerance,
displacement range and the motor driver's command log are as before, so no motor
command is issued), and remote_code becomes code when code != -1. -/
theorem decode_position_frame (s : Valve) (code : Int) :
    (decode_position s code).2 =
        { s with _remote_code := if code ≠ -1 then code else s._remote_code } ∧
      (decode_position s code).2._set_position = s._set_position ∧
      (decode_position s code).2.displacement = s.displacement ∧
      (decode_position s code).2.in_position = s.in_position ∧
      (decode_position s code).2._displacement_tolerance = s._displacement_tolerance ∧
      (decode_position s code).2._displacement_min = s._displacement_min ∧
      (decode_position s code).2._displacement_max = s._displacement_max ∧
      (decode_position s code).2._tle = s._tle ∧
      (decode_position s code).2._remote_code = (if code ≠ -1 then code else s._remote_code) := by
  have h := decode_position_snd s code
  refine ⟨h, ?_, ?_, ?_, ?_, ?_, ?_, ?_, ?_⟩ <;> rw [h]

/-! ## The position sensor -/

/-- The scenario of a 2.5 V reading on that calibration: the angle is 90 degrees
and the displacement (90 / 360) * 3.14159 * 20 = 15.70795 mm. -/
theorem get_position_scenario_half_scale :
    (get_position (sample_valve 0 0 70) (5 / 2)).2.ang_position = 90 ∧
      (get_position (sample_valve 0 0 70) (5 / 2)).1 = (90 / 360) * (314159 / 100000) * 20 ∧
      (get_position (sample_valve 0 0 70) (5 / 2)).1 = 1570795 / 100000 := by
  refine ⟨?_, ?_, ?_⟩
  · rw [get_position_snd]
    simp only [sample_valve]
    norm_num
  · rw [sample_measured]
    norm_num
  · rw [sample_measured]
    norm_num

/-- C7: for calibration constants with angle_max >= 0, voltage_max > 0 and
gear_diameter >= 0, the displacement returned by `get_position` is monotonic
non-decreasing in the sensor voltage: for voltages v1 <= v2 in [0, voltage_max],
displacement(v1) <= displacement(v2). -/
theorem get_position_monotone (s : Valve) (v1 v2 : ℚ)
    (ha : 0 ≤ s._ang_position_max) (hu : 0 < s._u_max)
    (hd : 0 ≤ s._measurement_gear_diameter)
    (_h1 : 0 ≤ v1) (h12 : v1 ≤ v2) (_h2 : v2 ≤ s._u_max) :
    (get_position s v1).1 ≤ (get_position s v2).1 := by
  rw [get_position_fst, get_position_fst]
  have e1 : v1 * s._ang_position_max ≤ v2 * s._ang_position_max :=
    mul_le_mul_of_nonneg_right h12 ha
  have e2 : v1 * s._ang_position_max / s._u_max ≤ v2 * s._ang_position_max / s._u_max :=
    div_le_div_of_nonneg_right e1 (le_of_lt hu)
  have e3 : v1 * s._ang_position_max / s._u_max / 360
      ≤ v2 * s._ang_position_max / s._u_max / 360 :=
    div_le_div_of_nonneg_right e2 (by norm_num)
  have e4 : v1 * s._ang_position_max / s._u_max / 360 * (314159 / 100000)
      ≤ v2 * s._ang_position_max / s._u_max / 360 * (314159 / 100000) :=
    mul_le_mul_of_nonneg_right e3 (by norm_num)
  exact mul_le_mul_of_nonneg_right e4 hd

/-- Calibration 180 degrees over 5 V on a 20 mm gear: the displacement at 1 V is at
most the displacement at 2.5 V. -/
theorem get_position_monotone_witness :
    (0 : ℚ) ≤ (sample_valve 0 0 70)._ang_position_max ∧
      (0 : ℚ) < (sample_valve 0 0 70)._u_max ∧
      (0 : ℚ) ≤ (sample_valve 0 0 70)._measurement_gear_diameter ∧
      (0 : ℚ) ≤ 1 ∧ (1 : ℚ) ≤ 5 / 2 ∧ (5 / 2 : ℚ) ≤ (sample_valve 0 0 70)._u_max ∧
      (get_position (sample_valve 0 0 70) 1).1 ≤ (get_position (sample_valve 0 0 70) (5 / 2)).1 :=
  ⟨by norm_num [sample_valve], by norm_num [sample_valve], by norm_num [sample_valve],
    by norm_num, by norm_num, by norm_num [sample_valve],
    get_position_monotone (sample_valve 0 0 70) 1 (5 / 2) (by norm_num [sample_valve])
      (by norm_num [sample_valve]) (by norm_num [sample_valve]) (by norm_num) (by norm_num)
      (by norm_num [sample_valve])⟩

/-! ## Targets outside the displacement range -/

/-- C11 as stated fails: on the range [0, 70] the target -1/2 is outside the range,
the tolerance 1 is positive and a 0 V reading measures 0, inside the range, yet
`controller` returns true. -/
theorem controller_out_of_range_target_reached :
    ¬ ((sample_valve 0 0 70)._displacement_min ≤ (-1 / 2 : ℚ) ∧
        (-1 / 2 : ℚ) ≤ (sample_valve 0 0 70)._displacement_max) ∧
      (0 : ℚ) < 1 ∧
      (sample_valve 0 0 70)._displacement_min ≤ (get_position (sample_valve 0 0 70) 0).1 ∧
      (get_position (sample_valve 0 0 70) 0).1 ≤ (sample_valve 0 0 70)._displacement_max ∧
      (controller (set_position (sample_valve 0 0 70) (-1 / 2)) 1 0).1 = true := by
  have hm : (get_position (sample_valve 0 0 70) 0).1 = 0 := by
    rw [sample_measured]; norm_num
  have hm2 : (get_position (set_position (sample_valve 0 0 70) (-1 / 2)) 0).1 = 0 := hm
  refine ⟨?_, by norm_num, ?_, ?_, ?_⟩
  · simp only [sample_valve]
    norm_num
  · rw [hm]
    simp only [sample_valve]
    norm_num
  · rw [hm]
    simp only [sample_valve]
    norm_num
  · rw [controller_fst, hm2]
    simp only [set_position, sample_valve]
    norm_num [abs_lt]

/-- C11 (amended): `set_position` stores any target unclamped; and for every
tolerance > 0 and every target at least that tolerance outside the range
(target <= displacement_min - tolerance or target >= displacement_max + tolerance),
`controller` returns false on every reading whose displacement lies inside
[displacement_min, displacement_max], so the loop polling until settled is still
polling after any number of calls while the readings stay in the range. -/
theorem controller_far_out_of_range_never_reached (s : Valve) (target : ℚ) :
    (set_position s target)._set_position = target ∧
      ∀ tolerance : ℚ, 0 < tolerance →
        (target ≤ s._displacement_min - tolerance ∨ s._displacement_max + tolerance ≤ target) →
        (∀ volts : ℚ, s._displacement_min ≤ (get_position s volts).1 →
            (get_position s volts).1 ≤ s._displacement_max →
            (controller (set_position s target) tolerance volts).1 = false) ∧
          (∀ (fuel : Nat) (readings : Nat → ℚ),
            (∀ i, s._displacement_min ≤ (get_position s (readings i)).1 ∧
                (get_position s (readings i)).1 ≤ s._displacement_max) →
            poll_until_settled tolerance fuel readings (set_position s target) = none) := by
  refine ⟨rfl, ?_⟩
  intro tolerance _ hout
  have key : ∀ (t : Valve) (volts : ℚ), t._set_position = target →
      t._ang_position_max = s._ang_position_max → t._u_max = s._u_max →
      t._measurement_gear_diameter = s._measurement_gear_diameter →
      s._displacement_min ≤ (get_position s volts).1 →
      (get_position s volts).1 ≤ s._displacement_max →
      (controller t tolerance volts).1 = false := by
    intro t volts hsp ha hu hd hlo hhi
    apply controller_false_of_far
    rw [get_position_fst_congr s t volts ha hu hd, hsp]
    rcases hout with h | h
    · rw [abs_sub_comm]
      exact le_trans (by linarith) (le_abs_self _)
    · exact le_trans (by linarith) (le_abs_self _)
  constructor
  · intro volts hlo hhi
    exact key (set_position s target) volts rfl rfl rfl rfl hlo hhi
  · intro fuel
    have gen : ∀ (t : Valve) (readings : Nat → ℚ), t._set_position = target →
        t._ang_position_max = s._ang_position_max → t._u_max = s._u_max →
        t._measurement_gear_diameter = s._measurement_gear_diameter →
        (∀ i, s._displacement_min ≤ (get_position s (readings i)).1 ∧
            (get_position s (readings i)).1 ≤ s._displacement_max) →
        poll_until_settled tolerance fuel readings t = none := by
      induction fuel with
      | zero => intro t readings _ _ _ _ _; rfl
      | succ n ih =>
        intro t readings hsp ha hu hd hr
        have hk := controller_keeps t tolerance (readings 0)
        simp only [poll_until_settled,
          key t (readings 0) hsp ha hu hd (hr 0).1 (hr 0).2]
        apply ih
        · rw [hk.1, hsp]
        · rw [hk.2.2.2.2.1, ha]
        · rw [hk.2.2.2.2.2.1, hu]
        · rw [hk.2.2.2.2.2.2, hd]
        · intro i
          exact hr (i + 1)
    intro readings hr
    exact gen (set_position s target) readings rfl rfl rfl rfl hr

/-- On the range [0, 70] with tolerance 1, the target 80 is never reported reached
while the reading stays at 2.5 V (15.70795 mm). -/
theorem controller_far_out_of_range_never_reached_witness :
    (0 : ℚ) < 1 ∧
      (sample_valve 0 0 70)._displacement_max + 1 ≤ (80 : ℚ) ∧
      (sample_valve 0 0 70)._displacement_min ≤ (get_position (sample_valve 0 0 70) (5 / 2)).1 ∧
      (get_position (sample_valve 0 0 70) (5 / 2)).1 ≤ (sample_valve 0 0 70)._displacement_max ∧
      (controller (set_position (sample_valve 0 0 70) 80) 1 (5 / 2)).1 = false := by
  have hm : (get_position (sample_valve 0 0 70) (5 / 2)).1 = 1570795 / 100000 := by
    rw [sample_measured]; norm_num
  have h1 : (sample_valve 0 0 70)._displacement_max + 1 ≤ (80 : ℚ) := by
    simp only [sample_valve]; norm_num
  have h2 : (sample_valve 0 0 70)._displacement_min
      ≤ (get_position (sample_valve 0 0 70) (5 / 2)).1 := by
    rw [hm]; simp only [sample_valve]; norm_num
  have h3 : (get_position (sample_valve 0 0 70) (5 / 2)).1
      ≤ (sample_valve 0 0 70)._displacement_max := by
    rw [hm]; simp only [sample_valve]; norm_num
  exact ⟨by norm_num, h1, h2, h3,
    ((controller_far_out_of_range_never_reached (sample_valve 0 0 70) 80).2 1 (by norm_num)
      (Or.inr h1)).1 (5 / 2) h2 h3⟩

/-! ## Initialisation -/

/-- C13: with tolerance > 0, at exact equality target = measured `controller`
returns true and its one command is stop; whenever its command is drive-forward
the target is strictly greater than measured; and, for any tolerance, at exact
equality the command is drive-forward exactly when tolerance <= 0. -/
theorem controller_tolerance_before_direction (s : Valve) (tolerance volts : ℚ) :
    (0 < tolerance →
        (s._set_position = (get_position s volts).1 →
          (controller s tolerance volts).1 = true ∧
            (controller s tolerance volts).2._tle = { pwm := 0, dir := 0 } :: s._tle) ∧
        ((controller s tolerance volts).2._tle = { pwm := 1, dir := 1 } :: s._tle →
          (get_position s volts).1 < s._set_position)) ∧
      (s._set_position = (get_position s volts).1 →
        ((controller s tolerance volts).2._tle = { pwm := 1, dir := 1 } :: s._tle ↔
          tolerance ≤ 0)) := by
  have hs := congrArg Valve._tle (controller_snd s tolerance volts)
  simp only at hs
  have hf := controller_fst s tolerance volts
  refine ⟨fun ht => ⟨?_, ?_⟩, ?_⟩
  · intro heq
    have hr : (controller s tolerance volts).1 = true := by
      rw [hf, heq, sub_self, abs_zero]
      exact decide_eq_true ht
    refine ⟨hr, ?_⟩
    rw [hs, hr]
    simp
  · intro hcmd
    rw [hs] at hcmd
    cases hr : (controller s tolerance volts).1
    · rw [hr] at hf
      have hge : tolerance ≤ |s._set_position - (get_position s volts).1| :=
        not_lt.mp (of_decide_eq_false hf.symm)
      by_cases hdir : s._set_position ≥ (get_position s volts).1
      · rcases lt_or_eq_of_le hdir with hlt | heq
        · exact hlt
        · rw [← heq, sub_self, abs_zero] at hge
          exact absurd ht (not_lt.mpr hge)
      · rw [hr] at hcmd
        simp [hdir] at hcmd
    · rw [hr] at hcmd
      simp at hcmd
  · intro heq
    rw [hs]
    constructor
    · intro hcmd
      cases hr : (controller s tolerance volts).1
      · rw [hr] at hf
        have hge : tolerance ≤ |s._set_position - (get_position s volts).1| :=
          not_lt.mp (of_decide_eq_false hf.symm)
        rw [heq, sub_self, abs_zero] at hge
        exact hge
      · rw [hr] at hcmd
        simp at hcmd
    · intro hle
      have hr : (controller s tolerance volts).1 = false := by
        rw [hf, heq, sub_self, abs_zero]
        exact decide_eq_false (not_lt.mpr hle)
      rw [hr]
      simp [heq]

/-- Target 0 and a 0 V reading (0 mm) with tolerance 1: `controller` returns true
and commands stop. -/
theorem controller_tolerance_before_direction_witness :
    (0 : ℚ) < 1 ∧
      (sample_valve 0 0 70)._set_position = (get_position (sample_valve 0 0 70) 0).1 ∧
      (controller (sample_valve 0 0 70) 1 0).1 = true ∧
      (controller (sample_valve 0 0 70) 1 0).2._tle
        = { pwm := 0, dir := 0 } :: (sample_valve 0 0 70)._tle := by
  have hm : (sample_valve 0 0 70)._set_position = (get_position (sample_valve 0 0 70) 0).1 := by
    rw [sample_measured]; simp only [sample_valve]; norm_num
  exact ⟨by norm_num, hm,
    ((controller_tolerance_before_direction (sample_valve 0 0 70) 1 0).1 (by norm_num)).1 hm⟩

/-- C14: the controller keeps no memory of being settled.  Two valve states that
differ only, and arbitrarily, in the previous in_position flag, the previously stored
tolerance and the previously cached displacement give, for the same tolerance and
the same sensor reading, the same return value, the same motor command and the same
resulting in_position (indeed the same resulting state); and a valve that was
settled becomes seeking again on any call where |target - measured| >= tolerance. -/
theorem controller_not_sticky (s : Valve) (ip : Bool) (tol0 d0 tolerance volts : ℚ) :
    (controller { s with in_position := ip, _displacement_tolerance := tol0, displacement := d0 }
          tolerance volts).1 = (controller s tolerance volts).1 ∧
      (controller { s with in_position := ip, _displacement_tolerance := tol0, displacement := d0 }
          tolerance volts).2._tle = (controller s tolerance volts).2._tle ∧
      (controller { s with in_position := ip, _displacement_tolerance := tol0, displacement := d0 }
          tolerance volts).2.in_position = (controller s tolerance volts).2.in_position ∧
      controller { s with in_position := ip, _displacement_tolerance := tol0, displacement := d0 }
          tolerance volts = controller s tolerance volts ∧
      (s.in_position = true → tolerance ≤ |s._set_position - (get_position s volts).1| →
        (controller s tolerance volts).1 = false ∧
          (controller s tolerance volts).2.in_position = false) := by
  have hfst : (controller
      { s with in_position := ip, _displacement_tolerance := tol0, displacement := d0 }
        tolerance volts).1 = (controller s tolerance volts).1 := by
    rw [controller_fst, controller_fst]
    rfl
  have hall : controller
      { s with in_position := ip, _displacement_tolerance := tol0, displacement := d0 }
        tolerance volts = controller s tolerance volts := by
    apply Prod.ext
    · exact hfst
    · rw [controller_snd, controller_snd, hfst]
      rfl
  refine ⟨hfst, by rw [hall], by rw [hall], hall, ?_⟩
  intro _ hfar
  have hr := controller_false_of_far s tolerance volts hfar
  refine ⟨hr, ?_⟩
  rw [controller_snd, hr]

/-- A valve at target 70 flagged in position, with a 2.5 V reading (15.70795 mm)
and tolerance 1: the call returns false and clears the flag. -/
theorem controller_not_sticky_witness :
    ({ sample_valve 70 0 70 with in_position := true } : Valve).in_position = true ∧
      (1 : ℚ) ≤ |({ sample_valve 70 0 70 with in_position := true } : Valve)._set_position
          - (get_position { sample_valve 70 0 70 with in_position := true } (5 / 2)).1| ∧
      (controller { sample_valve 70 0 70 with in_position := true } 1 (5 / 2)).1 = false ∧
      (controller { sample_valve 70 0 70 with in_position := true } 1 (5 / 2)).2.in_position
        = false := by
  have hfar : (1 : ℚ) ≤ |({ sample_valve 70 0 70 with in_position := true } : Valve)._set_position
      - (get_position { sample_valve 70 0 70 with in_position := true } (5 / 2)).1| := by
    have hm : (get_position { sample_valve 70 0 70 with in_position := true } (5 / 2)).1
        = 1570795 / 100000 := by
      rw [get_position_fst]; simp only [sample_valve]; norm_num
    rw [hm]
    simp only [sample_valve]
    norm_num [le_abs]
  exact ⟨rfl, hfar,
    (controller_not_sticky { sample_valve 70 0 70 with in_position := true } false 0 0 1
      (5 / 2)).2.2.2.2 rfl hfar⟩

/-- C17: the in-position result of `controller` is monotone in the tolerance, for a
fixed valve state and sensor reading: if it returns true for t it returns true for
every t' >= t, and if it returns false for t it returns false for every t' <= t. -/
theorem controller_monotone_in_tolerance (s : Valve) (t t' volts : ℚ) :
    ((controller s t volts).1 = true → t ≤ t' → (controller s t' volts).1 = true) ∧
      ((controller s t volts).1 = false → t' ≤ t → (controller s t' volts).1 = false) := by
  rw [controller_fst, controller_fst]
  constructor
  · intro h hle
    exact decide_eq_true (lt_of_lt_of_le (of_decide_eq_true h) hle)
  · intro h hle
    exact decide_eq_false (fun hlt => of_decide_eq_false h (lt_of_lt_of_le hlt hle))

/-- Target 0, a reading worth 0.3 mm: in position for tolerance 1, hence for
tolerance 2, and not in position for tolerance 1/4, hence not for tolerance 1/8. -/
theorem controller_monotone_in_tolerance_witness :
    ((controller (sample_valve 0 0 70) 1 (15000 / 314159)).1 = true ∧ (1 : ℚ) ≤ 2 ∧
        (controller (sample_valve 0 0 70) 2 (15000 / 314159)).1 = true) ∧
      ((controller (sample_valve 0 0 70) (1 / 4) (15000 / 314159)).1 = false ∧
        (1 / 8 : ℚ) ≤ 1 / 4 ∧
        (controller (sample_valve 0 0 70) (1 / 8) (15000 / 314159)).1 = false) := by
  have hr : (controller (sample_valve 0 0 70) 1 (15000 / 314159)).1 = true := by
    rw [controller_fst, sample_measured]
    simp only [sample_valve]
    norm_num [abs_lt]
  have hq : (controller (sample_valve 0 0 70) (1 / 4) (15000 / 314159)).1 = false := by
    rw [controller_fst, sample_measured]
    simp only [sample_valve]
    norm_num [le_abs]
  exact ⟨⟨hr, by norm_num,
      (controller_monotone_in_tolerance (sample_valve 0 0 70) 1 2 (15000 / 314159)).1 hr
        (by norm_num)⟩,
    ⟨hq, by norm_num,
      (controller_monotone_in_tolerance (sample_valve 0 0 70) (1 / 4) (1 / 8)
        (15000 / 314159)).2 hq (by norm_num)⟩⟩

/-- C18: `controller` and `get_position` never modify the target: after either, the
set position, the stored remote_code and the range displacement_min /
displacement_max are as before; and `set_position(x)` makes the set position exactly
x and changes nothing else (putting the old target back gives the old state). -/
theorem target_and_range_frame (s : Valve) (tolerance volts x : ℚ) :
    ((controller s tolerance volts).2._set_position = s._set_position ∧
        (controller s tolerance volts).2._remote_code = s._remote_code ∧
        (controller s tolerance volts).2._displacement_min = s._displacement_min ∧
        (controller s tolerance volts).2._displacement_max = s._displacement_max) ∧
      ((get_position s volts).2._set_position = s._set_position ∧
        (get_position s volts).2._remote_code = s._remote_code ∧
        (get_position s volts).2._displacement_min = s._displacement_min ∧
        (get_position s volts).2._displacement_max = s._displacement_max) ∧
      (set_position s x)._set_position = x ∧
      { set_position s x with _set_position := s._set_position } = s := by
  have hk := controller_keeps s tolerance volts
  exact ⟨⟨hk.1, hk.2.1, hk.2.2.1, hk.2.2.2.1⟩, ⟨rfl, rfl, rfl, rfl⟩, rfl, rfl⟩

/-! ## The application's polling statement -/

/-- Whenever the statement `while (ad_valve_1.controller());` is left, the valve is
flagged not in position and the most recent motor command has the motor enabled:
the loop goes on while `controller` returns true and is left by a call that
returned false. -/
theorem poll_while_controller_exit (tolerance : ℚ) (fuel : Nat) :
    ∀ (readings : Nat → ℚ) (s : Valve) (k : Nat) (s1 : Valve),
      poll_while_controller tolerance fuel readings s = some (k, s1) →
      s1.in_position = false ∧ ∃ dir : Nat, s1._tle.head? = some { pwm := 1, dir := dir } := by
  induction fuel with
  | zero =>
    intro readings s k s1 h
    simp [poll_while_controller] at h
  | succ n ih =>
    intro readings s k s1 h
    cases hr : (controller s tolerance (readings 0)).1
    · simp only [poll_while_controller, hr] at h
      have h2 : s1 = (controller s tolerance (readings 0)).2 := by
        simp at h
        exact h.2.symm
      rw [h2, controller_snd, hr]
      refine ⟨rfl, ?_⟩
      by_cases hd : s._set_position ≥ (get_position s (readings 0)).1
      · exact ⟨1, by simp [hd]⟩
      · exact ⟨0, by simp [hd]⟩
    · simp only [poll_while_controller, hr] at h
      cases hp : poll_while_controller tolerance n (fun i => readings (i + 1))
          (controller s tolerance (readings 0)).2 with
      | none => rw [hp] at h; simp at h
      | some p =>
        rw [hp] at h
        simp at h
        have h3 := ih (fun i => readings (i + 1)) (controller s tolerance (readings 0)).2 p.1 p.2 hp
        rw [← h.2]
        exact h3

/-- While every reading is within tolerance of the target the statement
`while (ad_valve_1.controller());` is never left. -/
theorem poll_while_controller_spins (tolerance : ℚ) (fuel : Nat) :
    ∀ (readings : Nat → ℚ) (s : Valve),
      (∀ i, |s._set_position - (get_position s (readings i)).1| < tolerance) →
      poll_while_controller tolerance fuel readings s = none := by
  induction fuel with
  | zero => intro readings s _; rfl
  | succ n ih =>
    intro readings s h
    have hr : (controller s tolerance (readings 0)).1 = true := by
      rw [controller_fst]
      exact decide_eq_true (h 0)
    have hk := controller_keeps s tolerance (readings 0)
    simp only [poll_while_controller, hr]
    rw [ih]
    · rfl
    · intro i
      rw [hk.1, get_position_fst_congr s _ _ hk.2.2.2.2.1 hk.2.2.2.2.2.1 hk.2.2.2.2.2.2]
      exact h (i + 1)

/-- C15 (the code at a failing input): tolerance 1, every reading 2.5 V
(15.70795 mm).  After `set_position(0)` the polling statement is left after one
controller call, which returned false: the valve is flagged not in position and the
motor was just commanded on, in reverse; a whole pass of `loop()` ends the same way
after `set_position(70)`, the motor commanded on, forward. -/
theorem loop_leaves_polling_while_seeking :
    (controller (set_position (sample_valve 0 0 70) 0) 1 (5 / 2)).1 = false ∧
      (poll_while_controller 1 1 (fun _ => 5 / 2) (set_position (sample_valve 0 0 70) 0)).map
          (fun p => (p.1, p.2.in_position, p.2._tle))
        = some (1, false, [{ pwm := 1, dir := 0 }]) ∧
      (loop 1 1 (fun _ => 5 / 2) (sample_valve 0 0 70)).map
          (fun v => (v._set_position, v.in_position, v._tle))
        = some (70, false, [{ pwm := 1, dir := 1 }, { pwm := 1, dir := 0 }]) := by
  have hm : ∀ (t : Valve), t._ang_position_max = 180 → t._u_max = 5 →
      t._measurement_gear_diameter = 20 → (get_position t (5 / 2)).1 = 1570795 / 100000 := by
    intro t ha hu hd
    rw [get_position_fst, ha, hu, hd]
    norm_num
  have hf : ∀ (t : Valve) (x : ℚ), t._ang_position_max = 180 → t._u_max = 5 →
      t._measurement_gear_diameter = 20 → t._set_position = x →
      (1 : ℚ) ≤ |x - 1570795 / 100000| → (controller t 1 (5 / 2)).1 = false := by
    intro t x ha hu hd hx hfar
    apply controller_false_of_far
    rw [hm t ha hu hd, hx]
    exact hfar
  have h0 : (controller (set_position (sample_valve 0 0 70) 0) 1 (5 / 2)).1 = false :=
    hf _ 0 rfl rfl rfl rfl (by norm_num [le_abs])
  have h70 : (controller (set_position
      (controller (set_position (sample_valve 0 0 70) 0) 1 (5 / 2)).2 70) 1 (5 / 2)).1 = false := by
    have hk := controller_keeps (set_position (sample_valve 0 0 70) 0) 1 (5 / 2)
    refine hf _ 70 ?_ ?_ ?_ rfl (by norm_num [le_abs])
    · exact hk.2.2.2.2.1
    · exact hk.2.2.2.2.2.1
    · exact hk.2.2.2.2.2.2
  have hp : poll_while_controller 1 1 (fun _ => 5 / 2) (set_position (sample_valve 0 0 70) 0)
      = some (1, (controller (set_position (sample_valve 0 0 70) 0) 1 (5 / 2)).2) := by
    simp only [poll_while_controller, h0]
    rfl
  refine ⟨h0, ?_, ?_⟩
  · rw [hp, controller_snd, h0, hm _ rfl rfl rfl]
    simp only [set_position, sample_valve]
    norm_num
  · have hp2 : poll_while_controller 1 1 (fun i => (fun _ => (5 / 2 : ℚ)) (i + 1))
        (set_position (controller (set_position (sample_valve 0 0 70) 0) 1 (5 / 2)).2 70)
        = some (1, (controller (set_position
            (controller (set_position (sample_valve 0 0 70) 0) 1 (5 / 2)).2 70) 1 (5 / 2)).2) := by
      simp only [poll_while_controller, h70]
      rfl
    have hl : loop 1 1 (fun _ => 5 / 2) (sample_valve 0 0 70)
        = some (controller (set_position
            (controller (set_position (sample_valve 0 0 70) 0) 1 (5 / 2)).2 70) 1 (5 / 2)).2 := by
      unfold loop
      rw [hp]
      simp only [hp2]
    rw [hl]
    have hk := controller_keeps (set_position (sample_valve 0 0 70) 0) 1 (5 / 2)
    have hm2 := hm (set_position (controller (set_position (sample_valve 0 0 70) 0) 1 (5 / 2)).2 70)
      hk.2.2.2.2.1 hk.2.2.2.2.2.1 hk.2.2.2.2.2.2
    have ht : (controller (set_position (sample_valve 0 0 70) 0) 1 (5 / 2)).2._tle
        = [{ pwm := 1, dir := 0 }] := by
      rw [controller_snd, h0, hm _ rfl rfl rfl]
      simp only [set_position, sample_valve]
      norm_num
    have hB1 : (controller (set_position
        (controller (set_position (sample_valve 0 0 70) 0) 1 (5 / 2)).2 70) 1 (5 / 2)).2._set_position
        = 70 := by
      rw [controller_snd]
      rfl
    have hB2 : (controller (set_position
        (controller (set_position (sample_valve 0 0 70) 0) 1 (5 / 2)).2 70) 1 (5 / 2)).2.in_position
        = false := by
      rw [controller_snd, h70]
    have hB3 : (controller (set_position
        (controller (set_position (sample_valve 0 0 70) 0) 1 (5 / 2)).2 70) 1 (5 / 2)).2._tle
        = [{ pwm := 1, dir := 1 }, { pwm := 1, dir := 0 }] := by
      rw [controller_snd, h70, hm2]
      show (if false = true then ({ pwm := 0, dir := 0 } : MotorCmd)
          else if (70 : ℚ) ≥ 1570795 / 100000 then { pwm := 1, dir := 1 }
          else { pwm := 1, dir := 0 })
          :: (controller (set_position (sample_valve 0 0 70) 0) 1 (5 / 2)).2._tle = _
      rw [ht]
      norm_num
    show some (_, _, _) = _
    rw [hB1, hB2, hB3]

/-! ## Codes outside the remote-code range -/

end AdaptiveValve
